import Mathlib

/-!
Verification of the asynchronous task lifecycle and stream-broadcast engine:
shallow embeddings of `backend/services/websocket_manager.py`,
`backend/services/chat_stream_manager.py`,
`backend/services/background_task_worker.py` and
`backend/services/adapters/kie/chat_adapter.py`, with theorems about the
replay-buffer, billing, broadcast and task-finalization behaviour.
-/

namespace EverydayAI

/-! ## websocket_manager.py -/

namespace Wm

/-- MAX_BUFFER_SIZE_BYTES = 1 * 1024 * 1024 -/
def MAX_BUFFER_SIZE_BYTES : ℤ := 1 * 1024 * 1024

/-- BUFFER_MAX_AGE_SECONDS = 300 -/
def BUFFER_MAX_AGE_SECONDS : ℚ := 300

/-- UTF-8 byte length of a string, `len(msg.encode('utf-8'))`: the sum of the
UTF-8 sizes of its characters. -/
def utf8Len (s : String) : ℤ :=
  s.data.foldl (fun n c => n + (c.utf8Size : ℤ)) 0

/-- One entry of `TaskBuffer.messages`: the `(timestamp, index, message_json)`
tuple. -/
structure BufEntry where
  ts : ℚ
  idx : ℕ
  msg : String
deriving DecidableEq, Repr

/-- The `TaskBuffer` dataclass. -/
structure TaskBuffer where
  messages : List BufEntry
  accumulated_content : String
  total_bytes : ℤ
  created_at : ℚ
  last_update : ℚ
  expire_at : Option ℚ
  next_index : ℕ
deriving DecidableEq, Repr

/-- A fresh `TaskBuffer()` created at time `t` (dataclass defaults). -/
def emptyTaskBuffer (t : ℚ) : TaskBuffer :=
  ⟨[], "", 0, t, t, none, 0⟩

/-- Sum of the UTF-8 byte lengths of the buffered messages. -/
def sumBytes (l : List BufEntry) : ℤ :=
  l.foldr (fun e a => utf8Len e.msg + a) 0

/-- The age-eviction loop of `add_message`:
`while self.messages and self.messages[0][0] < cutoff_time: pop(0)`. -/
def evictOld (cutoff : ℚ) : List BufEntry → ℤ → List BufEntry × ℤ
  | [], total => ([], total)
  | e :: rest, total =>
    if e.ts < cutoff then evictOld cutoff rest (total - utf8Len e.msg)
    else (e :: rest, total)

/-- The byte-eviction loop of `add_message`:
`while self.total_bytes > MAX_BUFFER_SIZE_BYTES and self.messages: pop(0)`. -/
def evictBytes : List BufEntry → ℤ → List BufEntry × ℤ
  | [], total => ([], total)
  | e :: rest, total =>
    if total > MAX_BUFFER_SIZE_BYTES then evictBytes rest (total - utf8Len e.msg)
    else (e :: rest, total)

/-- `TaskBuffer.add_message(msg)` at time `now`: append the entry under
`next_index`, bump the counter, then run age eviction and byte eviction.
Returns the assigned index and the updated buffer. -/
def TaskBuffer.add_message (b : TaskBuffer) (msg : String) (now : ℚ) :
    ℕ × TaskBuffer :=
  let currentIndex := b.next_index
  let msgs1 := b.messages ++ [⟨now, currentIndex, msg⟩]
  let total1 := b.total_bytes + utf8Len msg
  let cutoff := now - BUFFER_MAX_AGE_SECONDS
  let p1 := evictOld cutoff msgs1 total1
  let p2 := evictBytes p1.1 p1.2
  (currentIndex,
   { b with messages := p2.1, total_bytes := p2.2,
            last_update := now, next_index := b.next_index + 1 })

/-- `TaskBuffer.get_messages_after(last_index)`: the `(index, message)` pairs
of the retained messages whose index is strictly greater than `last_index`,
in buffer order. -/
def TaskBuffer.get_messages_after (b : TaskBuffer) (last_index : ℤ) :
    List (ℕ × String) :=
  (b.messages.filter (fun e => (e.idx : ℤ) > last_index)).map
    (fun e => (e.idx, e.msg))

/-- `TaskBuffer.get_current_index()`: `next_index - 1` if positive else `-1`. -/
def TaskBuffer.get_current_index (b : TaskBuffer) : ℤ :=
  if b.next_index > 0 then (b.next_index : ℤ) - 1 else -1

/-- The `Connection` dataclass (transport handle omitted). -/
structure ConnectionRec where
  user_id : String
  conn_id : String
  connected_at : ℚ
  last_heartbeat : ℚ
  subscribed_tasks : List String
deriving DecidableEq, Repr

/-- Lookup in an association list modelling a Python dict. -/
def lookupA {α : Type} (k : String) : List (String × α) → Option α
  | [] => none
  | p :: rest => if p.1 = k then some p.2 else lookupA k rest

/-- Update (or insert) a key in an association list modelling a Python dict. -/
def updateA {α : Type} (k : String) (v : α) : List (String × α) → List (String × α)
  | [] => [(k, v)]
  | p :: rest => if p.1 = k then (k, v) :: rest else p :: updateA k v rest

/-- The parts of `WebSocketManager` state that `subscribe_task` touches. -/
structure WsState where
  conn_index : List (String × ConnectionRec)
  task_subscribers : List (String × List String)
  task_buffers : List (String × TaskBuffer)
deriving Repr

/-- The replay payload returned by `WebSocketManager.subscribe_task`. -/
structure SubscribeResult where
  accumulated : String
  missed_messages : List (ℕ × String)
  current_index : ℤ
deriving DecidableEq, Repr

/-- `WebSocketManager.subscribe_task(conn_id, task_id, last_index)`: if the
connection is unknown return `none`; otherwise record the subscription and
return the accumulated content, the buffered messages after `last_index`
and the current index (defaults `"", [], -1` when the task has no buffer). -/
def subscribe_task (st : WsState) (conn_id task_id : String) (last_index : ℤ) :
    WsState × Option SubscribeResult :=
  match lookupA conn_id st.conn_index with
  | none => (st, none)
  | some conn =>
    let subs := (lookupA task_id st.task_subscribers).getD []
    let subs' := if conn_id ∈ subs then subs else conn_id :: subs
    let conn' := { conn with subscribed_tasks :=
        if task_id ∈ conn.subscribed_tasks then conn.subscribed_tasks
        else task_id :: conn.subscribed_tasks }
    let st' : WsState :=
      { st with task_subscribers := updateA task_id subs' st.task_subscribers,
                conn_index := updateA conn_id conn' st.conn_index }
    match lookupA task_id st.task_buffers with
    | some buffer =>
      (st', some ⟨buffer.accumulated_content,
                  buffer.get_messages_after last_index,
                  buffer.get_current_index⟩)
    | none => (st', some ⟨"", [], -1⟩)

end Wm

/-! ## chat_stream_manager.py -/

namespace Csm

/-- MAX_BUFFER_SIZE = 500 -/
def MAX_BUFFER_SIZE : ℕ := 500

/-- One buffered SSE message: the serialised event together with the `_index`
field embedded in it (`_index` is `len(state.buffer)` at broadcast time). -/
structure SseMsg where
  index : ℕ
  payload : String
deriving DecidableEq, Repr

/-- A subscriber's `asyncio.Queue`: its contents, plus whether `put_nowait`
succeeds on it (`ok = false` models a full or broken queue). -/
structure Queue where
  ok : Bool
  items : List (Option SseMsg)
deriving DecidableEq, Repr

/-- `StreamState` (the `asyncio.Task` handle is not modelled). -/
structure StreamState where
  subscribers : List (String × Queue)
  connection_version : ℕ
  buffer : List SseMsg
  full_content : String
deriving DecidableEq, Repr

/-- `put_nowait` on a queue that accepts the message. -/
def Queue.push (q : Queue) (m : Option SseMsg) : Queue :=
  { q with items := q.items ++ [m] }

/-- The fan-out loop of `_broadcast`: `put_nowait` the message into every
subscriber queue, collecting the connection ids whose push failed. -/
def deliverLoop (m : Option SseMsg) :
    List (String × Queue) → List (String × Queue) × List String
  | [] => ([], [])
  | (cid, q) :: rest =>
    let r := deliverLoop m rest
    if q.ok then ((cid, q.push m) :: r.1, r.2)
    else ((cid, q) :: r.1, cid :: r.2)

/-- The dead-connection cleanup of `_broadcast`: pop every failed connection
id from the subscriber dict. -/
def removeDead (dead : List String) : List (String × Queue) → List (String × Queue)
  | [] => []
  | p :: rest =>
    if p.1 ∈ dead then removeDead dead rest else p :: removeDead dead rest

/-- `ChatStreamManager._broadcast(task_id, state, data)`: `data = none` is
the end-of-stream signal (buffered nothing, pushed as-is); otherwise the
message carries `_index = len(state.buffer)`, is appended to the buffer,
the oldest entry is popped once the buffer exceeds `MAX_BUFFER_SIZE`, and
the message is pushed to every subscriber, dropping those whose push fails. -/
def broadcast (st : StreamState) (data : Option String) : StreamState :=
  let msg : Option SseMsg := data.map (fun d => ⟨st.buffer.length, d⟩)
  let buffer' : List SseMsg :=
    match msg with
    | some m =>
      let b := st.buffer ++ [m]
      if b.length > MAX_BUFFER_SIZE then b.drop 1 else b
    | none => st.buffer
  let d := deliverLoop msg st.subscribers
  { st with buffer := buffer', subscribers := removeDead d.2 d.1 }

/-- `ChatStreamManager.subscribe` on an active stream: bump
`connection_version`, create a fresh queue preloaded with the buffered
messages from position `max 0 (last_received_index + 1)` on, register it,
and return `(queue, full_content, connection_id, len(buffer) - 1)`. -/
def subscribe (st : StreamState) (connection_id : String)
    (last_received_index : ℤ) : StreamState × Queue × String × String × ℤ :=
  let startIndex : ℕ := (max 0 (last_received_index + 1)).toNat
  let replay : List SseMsg :=
    if startIndex < st.buffer.length then st.buffer.drop startIndex else []
  let queue : Queue := ⟨true, replay.map some⟩
  ({ st with connection_version := st.connection_version + 1,
             subscribers := st.subscribers ++ [(connection_id, queue)] },
   queue, st.full_content, connection_id, (st.buffer.length : ℤ) - 1)

/-- A producer that has emitted `n` `content` events and has no subscribers:
`broadcast` iterated `n` times from the initial stream state. -/
def iterBroadcast : ℕ → StreamState
  | 0 => ⟨[], 0, [], ""⟩
  | n + 1 => broadcast (iterBroadcast n) (some "x")

/-- The `_index` attached to the `(n+1)`-st broadcast event of that
producer: `len(state.buffer)` before the append. -/
def assignedIndex (n : ℕ) : ℕ := (iterBroadcast n).buffer.length

end Csm

/-! ## adapters/kie/chat_adapter.py and the billing tail of
`ChatStreamManager._process_stream` -/

namespace Kie

/-- Decimal.to_integral_value() rounds half to even (ROUND_HALF_EVEN). -/
def roundHalfEven (q : ℚ) : ℤ :=
  let f := ⌊q⌋
  let r := q - f
  if r < 1 / 2 then f
  else if 1 / 2 < r then f + 1
  else if f % 2 = 0 then f else f + 1

/-- Python `int()` on a Decimal/rational: truncation toward zero. -/
def pyIntTrunc (q : ℚ) : ℤ := if 0 ≤ q then ⌊q⌋ else ⌈q⌉

/-- The pricing fields of a `MODEL_CONFIGS` entry. -/
structure ModelConfig where
  cost_per_1k_input : ℚ
  cost_per_1k_output : ℚ
  credits_per_1k_input : ℚ
  credits_per_1k_output : ℚ
deriving DecidableEq, Repr

/-- MODEL_CONFIGS["gemini-3-flash"] pricing fields. -/
def flashConfig : ModelConfig :=
  ⟨15 / 100000, 9 / 10000, 3 / 10, 9 / 5⟩

/-- MODEL_CONFIGS["gemini-3-pro"] pricing fields. -/
def proConfig : ModelConfig :=
  ⟨5 / 10000, 35 / 10000, 1, 7⟩

/-- The cost/credits part of `CostEstimate`. -/
structure CostEstimate where
  estimated_cost_usd : ℚ
  estimated_credits : ℤ
deriving DecidableEq, Repr

/-- `KieChatAdapter.estimate_cost(input_tokens, output_tokens)`. -/
def estimate_cost (cfg : ModelConfig) (input_tokens output_tokens : ℕ) :
    CostEstimate :=
  let input_cost := (input_tokens : ℚ) / 1000 * cfg.cost_per_1k_input
  let output_cost := (output_tokens : ℚ) / 1000 * cfg.cost_per_1k_output
  let input_credits := (input_tokens : ℚ) / 1000 * cfg.credits_per_1k_input
  let output_credits := (output_tokens : ℚ) / 1000 * cfg.credits_per_1k_output
  ⟨input_cost + output_cost, roundHalfEven (input_credits + output_credits)⟩

/-- One provider stream chunk as `_process_stream` consumes it: an optional
content delta (`none` for an empty or absent delta) and optional usage
`(prompt_tokens, completion_tokens)`. -/
structure Chunk where
  content : Option String
  usage : Option (ℕ × ℕ)
deriving Repr

/-- The `async for chunk in stream` loop of `_process_stream`, restricted to
its accumulation effects: `full_content` grows by each content delta, and
`total_credits` is recomputed from the last chunk carrying usage. -/
def streamFold (cfg : ModelConfig) (chunks : List Chunk) : String × ℤ :=
  chunks.foldl
    (fun acc c =>
      let full := match c.content with
        | some t => acc.1 ++ t
        | none => acc.1
      let credits := match c.usage with
        | some u => (estimate_cost cfg u.1 u.2).estimated_credits
        | none => acc.2
      (full, credits))
    ("", 0)

/-- The fallback billing heuristic of `_process_stream`:
`estimated_tokens = max(len(full_content) // 3, 10)` and
`int(Decimal(estimated_tokens) / 1000 * credits_per_1k_output) + 1`. -/
def fallbackCredits (cfg : ModelConfig) (contentLen : ℕ) : ℤ :=
  let estimated_tokens := max (contentLen / 3) 10
  pyIntTrunc ((estimated_tokens : ℚ) / 1000 * cfg.credits_per_1k_output) + 1

/-- The completion branch of `_process_stream` (stream finished without an
exception): returns `some billed` exactly when `deduct_user_credits` is
invoked, with the billed amount; `none` when no content accumulated. -/
def completionBilling (cfg : ModelConfig) (full_content : String)
    (total_credits : ℤ) : Option ℤ :=
  if full_content ≠ "" then
    some (if total_credits = 0 ∧ full_content.length > 0 then
            fallbackCredits cfg full_content.length
          else total_credits)
  else none

end Kie

/-! ## background_task_worker.py and the task-row writes of
`ChatStreamManager._process_stream` -/

namespace Btw

/-- The local task status vocabulary. -/
inductive TaskStatus where
  | pending
  | running
  | completed
  | failed
deriving DecidableEq, Repr

/-- The provider's answer to `adapter.query_task`, as the worker reads it. -/
structure KieResult where
  status : Option String
  fail_code : Option String
  fail_msg : Option String
  credits_consumed : Option ℤ
deriving DecidableEq, Repr

/-- The columns of a `tasks` row that the worker and the producer touch. -/
structure TaskRow where
  id : String
  external_task_id : String
  type' : String
  status : TaskStatus
  started_at : ℚ
  completed_at : Option ℚ
  last_polled_at : Option ℚ
  accumulated_content : String
  error_message : Option String
  fail_code : Option String
  result : Option KieResult
  credits_used : ℤ
deriving DecidableEq, Repr

/-- The KIE-status mapping of `query_kie_and_update`:
`status_mapping.get(kie_status, "pending")`. -/
def statusMapping : Option String → TaskStatus
  | some s =>
    if s = "pending" then .pending
    else if s = "processing" then .running
    else if s = "success" then .completed
    else if s = "failed" then .failed
    else .pending
  | none => .pending

/-- The database write of `BackgroundTaskWorker.query_kie_and_update` applied
to the row matched by `external_task_id` — the update carries no condition
on the row's current status. -/
def query_kie_and_update (row : TaskRow) (result : KieResult) (now : ℚ) :
    TaskRow :=
  let db_status := statusMapping result.status
  let row1 := { row with status := db_status, last_polled_at := some now }
  if db_status = .completed then
    { row1 with result := some result, completed_at := some now,
                credits_used := result.credits_consumed.getD 0 }
  else if db_status = .failed then
    { row1 with fail_code := result.fail_code,
                error_message := some (result.fail_msg.getD "任务失败"),
                completed_at := some now }
  else row1

/-- Per-kind timeout of `cleanup_stale_tasks`: 10 minutes for chat tasks.
Modelled from the spec: `IMAGE_TASK_TIMEOUT_MINUTES` and
`VIDEO_TASK_TIMEOUT_MINUTES` come from `core/task_config.py`, which is not
in the source tree; the spec only states that the timeout varies by task
kind, so the image and video values are parameters. -/
def timeout_minutes (image_timeout video_timeout : ℕ) (t : String) : ℕ :=
  if t = "chat" then 10
  else if t = "image" then image_timeout
  else video_timeout

/-- The timeout error message written by `cleanup_stale_tasks`. -/
def timeout_error_message (m : ℕ) : String :=
  "任务超时 (超过" ++ toString m ++ "分钟)"

/-- The per-row body of the `cleanup_stale_tasks` sweep: a selected
pending/running row whose age exceeds its kind's timeout is written failed
with the timeout message and `completed_at = now`. -/
def sweep_row (image_timeout video_timeout : ℕ) (now : ℚ) (task : TaskRow) :
    TaskRow :=
  if task.status = .pending ∨ task.status = .running then
    let m := timeout_minutes image_timeout video_timeout task.type'
    if now - task.started_at > (m : ℚ) * 60 then
      { task with status := .failed,
                  error_message := some (timeout_error_message m),
                  completed_at := some now }
    else task
  else task

/-- One `cleanup_stale_tasks` pass over the task table (the select keeps
only pending/running rows; other rows are untouched, which `sweep_row`
reflects with its status test). -/
def cleanup_stale_tasks (image_timeout video_timeout : ℕ) (now : ℚ)
    (tasks : List TaskRow) : List TaskRow :=
  tasks.map (sweep_row image_timeout video_timeout now)

/-- The `finally` block of `ChatStreamManager._process_stream`: when the
coroutine did not complete normally and content accumulated, re-read the
row's status and force a failed transition only if it is still
pending/running. -/
def final_cleanup_sync (row : TaskRow) (full_content : String)
    (completed_normally : Bool) (now : ℚ) : TaskRow :=
  if completed_normally = false ∧ full_content ≠ "" then
    if row.status = .pending ∨ row.status = .running then
      { row with accumulated_content := full_content,
                 status := .failed,
                 error_message := some "处理异常中断",
                 completed_at := some now }
    else row
  else row

end Btw

/-! ## Concrete instances used by counterexamples and witnesses -/

namespace Wm

/-- A connection of user `bob`. -/
def c5Conn : ConnectionRec := ⟨"bob", "c1", 0, 0, []⟩

/-- A task buffer holding another user's accumulated output. -/
def c5Buffer : TaskBuffer := ⟨[⟨0, 0, "m0"⟩], "alices-secret", 4, 0, 0, none, 1⟩

/-- Manager state: `bob`'s connection registered, a buffer for task `t1`. -/
def c5State : WsState := ⟨[("c1", c5Conn)], [], [("t1", c5Buffer)]⟩

/-- Task ownership as recorded outside the manager: `t1` belongs to `alice`. -/
def c5Owner : String → String := fun _ => "alice"

/-- A single message of 1048577 `a` characters: 1048577 UTF-8 bytes, one more
than `MAX_BUFFER_SIZE_BYTES`. -/
def hugeMsg : String := String.mk (List.replicate 1048577 'a')

/-- A buffer with two entries, indices 0 and 1, for the replay witness. -/
def c9Buffer : TaskBuffer := ⟨[⟨0, 0, "m0"⟩, ⟨1, 1, "m1"⟩], "ab", 4, 0, 1, none, 2⟩

/-- Manager state for the replay witness. -/
def c9State : WsState := ⟨[("c9", ⟨"u9", "c9", 0, 0, []⟩)], [], [("t9", c9Buffer)]⟩

end Wm

/-! ## Theorems: websocket_manager.py -/

namespace Wm

theorem utf8Len_foldl (n : ℕ) (k : ℤ) :
    List.foldl (fun a c => a + ((c : Char).utf8Size : ℤ)) k
      (List.replicate n 'a') = k + n := by
  induction n generalizing k with
  | zero => simp
  | succ n ih =>
    rw [List.replicate_succ, List.foldl_cons, ih]
    have : (('a' : Char).utf8Size : ℤ) = 1 := by decide
    rw [this]
    push_cast
    ring

theorem utf8Len_hugeMsg : utf8Len hugeMsg = 1048577 := by
  show List.foldl _ 0 (List.replicate 1048577 'a') = 1048577
  rw [utf8Len_foldl]
  norm_num

theorem sumBytes_append (l₁ l₂ : List BufEntry) :
    sumBytes (l₁ ++ l₂) = sumBytes l₁ + sumBytes l₂ := by
  induction l₁ with
  | nil => simp [sumBytes]
  | cons e rest ih => simp [sumBytes] at ih ⊢; omega

theorem evictOld_suffix (c : ℚ) :
    ∀ (l : List BufEntry) (t : ℤ), (evictOld c l t).1 <:+ l
  | [], _ => by simp [evictOld]
  | e :: rest, t => by
    unfold evictOld
    split
    · exact (evictOld_suffix c rest _).trans (List.suffix_cons e rest)
    · exact List.suffix_refl _

theorem evictBytes_suffix :
    ∀ (l : List BufEntry) (t : ℤ), (evictBytes l t).1 <:+ l
  | [], _ => by simp [evictBytes]
  | e :: rest, t => by
    unfold evictBytes
    split
    · exact (evictBytes_suffix rest _).trans (List.suffix_cons e rest)
    · exact List.suffix_refl _

theorem evictOld_sum (c : ℚ) :
    ∀ (l : List BufEntry) (t : ℤ), t = sumBytes l →
      (evictOld c l t).2 = sumBytes (evictOld c l t).1
  | [], t, h => by simpa [evictOld] using h
  | e :: rest, t, h => by
    unfold evictOld
    split
    · refine evictOld_sum c rest _ ?_
      simp [sumBytes] at h ⊢
      omega
    · simpa using h

theorem evictBytes_sum :
    ∀ (l : List BufEntry) (t : ℤ), t = sumBytes l →
      (evictBytes l t).2 = sumBytes (evictBytes l t).1
  | [], t, h => by simpa [evictBytes] using h
  | e :: rest, t, h => by
    unfold evictBytes
    split
    · refine evictBytes_sum rest _ ?_
      simp [sumBytes] at h ⊢
      omega
    · simpa using h

theorem evictBytes_le :
    ∀ (l : List BufEntry) (t : ℤ), t = sumBytes l →
      (evictBytes l t).2 ≤ MAX_BUFFER_SIZE_BYTES
  | [], t, h => by
    simp [sumBytes] at h
    simp [evictBytes, h, MAX_BUFFER_SIZE_BYTES]
  | e :: rest, t, h => by
    unfold evictBytes
    split
    · refine evictBytes_le rest _ ?_
      simp [sumBytes] at h ⊢
      omega
    · next hc => simpa using not_lt.mp hc

theorem evictOld_age (c : ℚ) :
    ∀ (l : List BufEntry) (t : ℤ),
      l.Pairwise (fun x y => x.ts ≤ y.ts) →
      ∀ e ∈ (evictOld c l t).1, c ≤ e.ts
  | [], _, _, e, he => by simp [evictOld] at he
  | a :: rest, t, hp, e, he => by
    unfold evictOld at he
    by_cases hc : a.ts < c
    · rw [if_pos hc] at he
      exact evictOld_age c rest _ (List.Pairwise.of_cons hp) e he
    · rw [if_neg hc] at he
      rcases List.mem_cons.mp he with rfl | hmem
      · exact not_lt.mp hc
      · exact le_trans (not_lt.mp hc) ((List.pairwise_cons.mp hp).1 e hmem)

/-- C4: after every `TaskBuffer.add_message` call the buffer's byte total is
the sum of its retained messages' UTF-8 lengths and does not exceed the 1 MB
ceiling, no retained message is older than the 5-minute age window measured
at the append, and eviction only removes entries from the front (oldest
first), the retained list being a suffix of the pre-eviction list. -/
theorem add_message_bounds (b : TaskBuffer) (msg : String) (now : ℚ)
    (hsum : b.total_bytes = sumBytes b.messages)
    (hsorted : b.messages.Pairwise (fun x y => x.ts ≤ y.ts))
    (hle : ∀ e ∈ b.messages, e.ts ≤ now) :
    ((b.add_message msg now).2.total_bytes =
      sumBytes (b.add_message msg now).2.messages) ∧
    (b.add_message msg now).2.total_bytes ≤ MAX_BUFFER_SIZE_BYTES ∧
    (∀ e ∈ (b.add_message msg now).2.messages,
      now - e.ts ≤ BUFFER_MAX_AGE_SECONDS) ∧
    (b.add_message msg now).2.messages <:+
      b.messages ++ [⟨now, b.next_index, msg⟩] := by
  have hsum1 : b.total_bytes + utf8Len msg =
      sumBytes (b.messages ++ [⟨now, b.next_index, msg⟩]) := by
    rw [sumBytes_append, hsum]
    simp [sumBytes]
  have hsorted1 :
      (b.messages ++ [(⟨now, b.next_index, msg⟩ : BufEntry)]).Pairwise
        (fun x y => x.ts ≤ y.ts) := by
    rw [List.pairwise_append]
    refine ⟨hsorted, List.pairwise_singleton _ _, ?_⟩
    intro x hx y hy
    simp at hy
    subst hy
    exact hle x hx
  have h1 := evictOld_sum (now - BUFFER_MAX_AGE_SECONDS) _ _ hsum1
  have h2 := evictBytes_sum (evictOld (now - BUFFER_MAX_AGE_SECONDS)
    (b.messages ++ [⟨now, b.next_index, msg⟩]) (b.total_bytes + utf8Len msg)).1 _ h1
  have h3 := evictBytes_le (evictOld (now - BUFFER_MAX_AGE_SECONDS)
    (b.messages ++ [⟨now, b.next_index, msg⟩]) (b.total_bytes + utf8Len msg)).1 _ h1
  have hage := evictOld_age (now - BUFFER_MAX_AGE_SECONDS) _
    (b.total_bytes + utf8Len msg) hsorted1
  have hsufO := evictOld_suffix (now - BUFFER_MAX_AGE_SECONDS)
    (b.messages ++ [⟨now, b.next_index, msg⟩]) (b.total_bytes + utf8Len msg)
  have hsufB := evictBytes_suffix (evictOld (now - BUFFER_MAX_AGE_SECONDS)
    (b.messages ++ [⟨now, b.next_index, msg⟩]) (b.total_bytes + utf8Len msg)).1
    (evictOld (now - BUFFER_MAX_AGE_SECONDS)
      (b.messages ++ [⟨now, b.next_index, msg⟩]) (b.total_bytes + utf8Len msg)).2
  simp only [TaskBuffer.add_message]
  refine ⟨h2, h3, ?_, hsufB.trans hsufO⟩
  intro e he
  have := hage e (hsufB.subset he)
  linarith

/-- C4 witness: the hypotheses and conclusion at a concrete buffer. -/
theorem add_message_bounds_witness :
    ((emptyTaskBuffer 0).total_bytes = sumBytes (emptyTaskBuffer 0).messages) ∧
    ((((emptyTaskBuffer 0).add_message "hi" 0).2.total_bytes =
        sumBytes ((emptyTaskBuffer 0).add_message "hi" 0).2.messages) ∧
      ((emptyTaskBuffer 0).add_message "hi" 0).2.total_bytes ≤
        MAX_BUFFER_SIZE_BYTES ∧
      (∀ e ∈ ((emptyTaskBuffer 0).add_message "hi" 0).2.messages,
        (0 : ℚ) - e.ts ≤ BUFFER_MAX_AGE_SECONDS) ∧
      ((emptyTaskBuffer 0).add_message "hi" 0).2.messages <:+
        (emptyTaskBuffer 0).messages ++
          [⟨0, (emptyTaskBuffer 0).next_index, "hi"⟩]) :=
  ⟨rfl, add_message_bounds (emptyTaskBuffer 0) "hi" 0 rfl List.Pairwise.nil
    (by simp [emptyTaskBuffer])⟩

/-- C10: a single message whose UTF-8 encoding exceeds the 1 MB ceiling is
evicted by its own `add_message` call: the call still returns the freshly
assigned index `0` and bumps the counter to `1`, but the retained message
list is empty and `get_messages_after` finds nothing, even immediately
after the append. -/
theorem add_message_oversized_self_evicting (msg : String) (now t : ℚ)
    (h : utf8Len msg > MAX_BUFFER_SIZE_BYTES) :
    (emptyTaskBuffer t).add_message msg now =
      (0, ⟨[], "", 0, t, now, none, 1⟩) ∧
    ((emptyTaskBuffer t).add_message msg now).2.get_messages_after (-1) = [] := by
  have hage : ¬ (now < now - BUFFER_MAX_AGE_SECONDS) := by
    simp [BUFFER_MAX_AGE_SECONDS]
  have hmain : (emptyTaskBuffer t).add_message msg now =
      (0, ⟨[], "", 0, t, now, none, 1⟩) := by
    simp only [TaskBuffer.add_message, emptyTaskBuffer]
    simp only [List.nil_append, evictOld, if_neg hage, evictBytes,
      if_pos (by omega : (0 : ℤ) + utf8Len msg > MAX_BUFFER_SIZE_BYTES)]
    norm_num
  refine ⟨hmain, ?_⟩
  rw [hmain]
  rfl

/-- C10 witness: the 1048577-byte message at the empty buffer. -/
theorem add_message_oversized_self_evicting_witness :
    utf8Len hugeMsg > MAX_BUFFER_SIZE_BYTES ∧
    (emptyTaskBuffer 0).add_message hugeMsg 0 = (0, ⟨[], "", 0, 0, 0, none, 1⟩) ∧
    ((emptyTaskBuffer 0).add_message hugeMsg 0).2.get_messages_after (-1) = [] := by
  have h : utf8Len hugeMsg > MAX_BUFFER_SIZE_BYTES := by
    rw [utf8Len_hugeMsg]
    decide
  exact ⟨h, (add_message_oversized_self_evicting hugeMsg 0 0 h).1,
    (add_message_oversized_self_evicting hugeMsg 0 0 h).2⟩

/-- C9: for a registered connection, `subscribe_task` returns the buffer's
accumulated content, exactly the retained messages whose index is strictly
greater than `last_index` (in strictly increasing index order whenever the
buffer's indices are increasing, as `add_message` assigns them), and the
current latest index; for a task with no buffer it returns
`("", [], -1)`. -/
theorem subscribe_task_replay_spec (st : WsState) (conn_id task_id : String)
    (last_index : ℤ) (conn : ConnectionRec)
    (hc : lookupA conn_id st.conn_index = some conn) :
    (∀ b, lookupA task_id st.task_buffers = some b →
      ∃ r, (subscribe_task st conn_id task_id last_index).2 = some r ∧
        r.accumulated = b.accumulated_content ∧
        r.current_index = b.get_current_index ∧
        (∀ i m, (i, m) ∈ r.missed_messages ↔
          ((∃ ts, (⟨ts, i, m⟩ : BufEntry) ∈ b.messages) ∧ (i : ℤ) > last_index)) ∧
        (b.messages.Pairwise (fun x y => x.idx < y.idx) →
          r.missed_messages.Pairwise (fun x y => x.1 < y.1))) ∧
    (lookupA task_id st.task_buffers = none →
      (subscribe_task st conn_id task_id last_index).2 = some ⟨"", [], -1⟩) := by
  constructor
  · intro b hb
    refine ⟨⟨b.accumulated_content, b.get_messages_after last_index,
      b.get_current_index⟩, ?_, rfl, rfl, ?_, ?_⟩
    · simp only [subscribe_task, hc, hb]
    · intro i m
      simp only [TaskBuffer.get_messages_after, List.mem_map, List.mem_filter]
      constructor
      · rintro ⟨e, ⟨hmem, hgt⟩, heq⟩
        obtain ⟨h1, h2⟩ := Prod.mk.injEq _ _ _ _ ▸ heq
        refine ⟨⟨e.ts, ?_⟩, ?_⟩
        · rwa [show (⟨e.ts, i, m⟩ : BufEntry) = e by
            cases e; simp_all]
        · rw [← h1]
          exact of_decide_eq_true hgt
      · rintro ⟨⟨ts, hmem⟩, hgt⟩
        exact ⟨⟨ts, i, m⟩, ⟨hmem, decide_eq_true hgt⟩, rfl⟩
    · intro hpw
      exact (hpw.filter _).map _ (fun x y h => h)
  · intro hb
    simp only [subscribe_task, hc, hb]

/-- C9 witness: the spec instantiated at a two-entry buffer, `last_index = 0`. -/
theorem subscribe_task_replay_spec_witness :
    lookupA "c9" c9State.conn_index = some ⟨"u9", "c9", 0, 0, []⟩ ∧
    lookupA "t9" c9State.task_buffers = some c9Buffer ∧
    ∃ r, (subscribe_task c9State "c9" "t9" 0).2 = some r ∧
      r.accumulated = c9Buffer.accumulated_content ∧
      r.current_index = c9Buffer.get_current_index ∧
      (∀ i m, (i, m) ∈ r.missed_messages ↔
        ((∃ ts, (⟨ts, i, m⟩ : BufEntry) ∈ c9Buffer.messages) ∧ (i : ℤ) > 0)) ∧
      (c9Buffer.messages.Pairwise (fun x y => x.idx < y.idx) →
        r.missed_messages.Pairwise (fun x y => x.1 < y.1)) :=
  ⟨rfl, rfl,
    (subscribe_task_replay_spec c9State "c9" "t9" 0 ⟨"u9", "c9", 0, 0, []⟩ rfl).1
      c9Buffer rfl⟩

/-- C5 counterexample: the claim says a subscription against a task not
owned by the caller's user is rejected before buffered content is
returned, but `bob`'s connection subscribing to `alice`'s task receives
the buffer's accumulated content. -/
theorem subscribe_task_ignores_ownership_cex :
    c5Owner "t1" ≠ c5Conn.user_id ∧
    (subscribe_task c5State "c1" "t1" (-1)).2 =
      some ⟨"alices-secret", [(0, "m0")], 0⟩ := by
  exact ⟨by decide, rfl⟩

/-- C5 (amended): the subscribe path performs no task-ownership check: the
only rejection before the buffer is read is an unregistered connection id
(which yields `none`); any registered connection receives the task's
buffered content, whoever owns the task. -/
theorem subscribe_task_no_ownership_check :
    (∀ (st : WsState) (conn_id task_id : String) (last_index : ℤ),
      lookupA conn_id st.conn_index = none →
      subscribe_task st conn_id task_id last_index = (st, none)) ∧
    (∀ (st : WsState) (conn_id task_id : String) (last_index : ℤ)
      (conn : ConnectionRec) (b : TaskBuffer),
      lookupA conn_id st.conn_index = some conn →
      lookupA task_id st.task_buffers = some b →
      (subscribe_task st conn_id task_id last_index).2 =
        some ⟨b.accumulated_content, b.get_messages_after last_index,
              b.get_current_index⟩) := by
  constructor
  · intro st conn_id task_id last_index hc
    simp only [subscribe_task, hc]
  · intro st conn_id task_id last_index conn b hc hb
    simp only [subscribe_task, hc, hb]

/-- C5 (amended) witness: both branches at concrete states. -/
theorem subscribe_task_no_ownership_check_witness :
    (lookupA "nope" c5State.conn_index = none ∧
      subscribe_task c5State "nope" "t1" (-1) = (c5State, none)) ∧
    (lookupA "c1" c5State.conn_index = some c5Conn ∧
      (subscribe_task c5State "c1" "t1" (-1)).2 =
        some ⟨c5Buffer.accumulated_content, c5Buffer.get_messages_after (-1),
              c5Buffer.get_current_index⟩) :=
  ⟨⟨rfl, subscribe_task_no_ownership_check.1 c5State "nope" "t1" (-1) rfl⟩,
   ⟨rfl, subscribe_task_no_ownership_check.2 c5State "c1" "t1" (-1) c5Conn
      c5Buffer rfl rfl⟩⟩

end Wm

/-! ## Theorems: chat_stream_manager.py -/

namespace Csm

/-- A stream state whose producer has emitted two content chunks. -/
def c8State : StreamState := ⟨[], 0, [⟨0, "chunkA"⟩, ⟨1, "chunkB"⟩], "AB"⟩

/-- A stream state with three buffered events, indices positional. -/
def c2State : StreamState := ⟨[], 0, [⟨0, "a"⟩, ⟨1, "b"⟩, ⟨2, "c"⟩], "abc"⟩

/-- Three subscribers, the middle one with a broken queue. -/
def c7State : StreamState :=
  ⟨[("a", ⟨true, []⟩), ("b", ⟨false, []⟩), ("c", ⟨true, []⟩)], 3, [], ""⟩

theorem broadcast_some_buffer_length (st : StreamState) (d : String) :
    (broadcast st (some d)).buffer.length =
      if st.buffer.length + 1 > MAX_BUFFER_SIZE then st.buffer.length
      else st.buffer.length + 1 := by
  by_cases h : st.buffer.length + 1 > MAX_BUFFER_SIZE
  · simp [broadcast, List.length_append, h]
  · simp [broadcast, List.length_append, h]

theorem iterBroadcast_len (n : ℕ) :
    (iterBroadcast n).buffer.length = min n MAX_BUFFER_SIZE := by
  induction n with
  | zero => simp [iterBroadcast]
  | succ n ih =>
    show (broadcast (iterBroadcast n) (some "x")).buffer.length = _
    rw [broadcast_some_buffer_length, ih]
    simp only [MAX_BUFFER_SIZE]
    split <;> omega

/-- C2 counterexample: the index attached to a broadcast event is
`len(state.buffer)` at emission time, which stops growing once the size cap
evicts: the 501st and the 502nd events of a stream both carry index 500, so
the event index is not strictly increasing over the task's lifetime once
the buffer cap has evicted old entries. -/
theorem broadcast_index_not_strictly_increasing :
    assignedIndex 500 = 500 ∧ assignedIndex 501 = 500 := by
  constructor
  · show (iterBroadcast 500).buffer.length = 500
    rw [iterBroadcast_len]
    rfl
  · show (iterBroadcast 501).buffer.length = 500
    rw [iterBroadcast_len]
    rfl

theorem positional_pairwise (l : List SseMsg)
    (hpos : ∀ i : Fin l.length, ((l.get i).index : ℤ) = (i : ℕ)) :
    l.Pairwise (fun x y => x.index < y.index) := by
  rw [List.pairwise_iff_get]
  intro i j hij
  have hi := hpos i
  have hj := hpos j
  omega

theorem filter_index_eq_drop (k : ℤ) (hk : 0 ≤ k) :
    ∀ (l : List SseMsg) (base : ℕ),
      (∀ i : Fin l.length, ((l.get i).index : ℤ) = base + (i : ℕ)) →
      l.filter (fun m => (m.index : ℤ) > k) = l.drop ((k + 1 - base).toNat)
  | [], base, _ => by simp
  | a :: t, base, hpos => by
    have ha : (a.index : ℤ) = base := by
      have := hpos ⟨0, by simp⟩
      simpa using this
    have ht : ∀ i : Fin t.length, ((t.get i).index : ℤ) = (base + 1) + (i : ℕ) := by
      intro i
      have h1 := hpos ⟨(i : ℕ) + 1, by simp [Nat.succ_lt_succ i.isLt]⟩
      have h2 : (a :: t).get ⟨(i : ℕ) + 1,
          by simp [Nat.succ_lt_succ i.isLt]⟩ = t.get i := rfl
      rw [h2] at h1
      push_cast at h1 ⊢
      omega
    by_cases hb : (base : ℤ) > k
    · have hkeep : ∀ m ∈ a :: t, decide ((m.index : ℤ) > k) = true := by
        intro m hm
        rcases List.mem_cons.mp hm with rfl | hmem
        · simp only [decide_eq_true_eq]
          omega
        · obtain ⟨i, hi⟩ := List.get_of_mem hmem
          have := ht i
          rw [hi] at this
          simp only [decide_eq_true_eq]
          omega
      rw [List.filter_eq_self.mpr hkeep]
      have h0 : (k + 1 - base).toNat = 0 := by omega
      rw [h0, List.drop_zero]
    · have hdrop : decide ((a.index : ℤ) > k) = false := by
        simp only [decide_eq_false_iff_not]
        omega
      rw [List.filter_cons, hdrop]
      simp only [Bool.false_eq_true, if_false]
      rw [filter_index_eq_drop k hk t (base + 1) ht]
      have harith : (k + 1 - (base : ℤ)).toNat =
          (k + 1 - ((base : ℤ) + 1)).toNat + 1 := by
        omega
      rw [harith, List.drop_succ_cons]
      congr 1

/-- C2 (amended): while no eviction has occurred the buffered events carry
their list position as index (strictly increasing from 0), and a subscriber
joining with `last_received_index = k ≥ 0` gets its queue preloaded with
exactly the buffered events of index strictly greater than `k`, in strictly
increasing index order with no duplicates. After the size cap evicts,
the emission index freezes at `MAX_BUFFER_SIZE` (see the counterexample)
and replay is by list position rather than by index. -/
theorem subscribe_replay_exact_pre_eviction (st : StreamState)
    (connection_id : String) (k : ℤ)
    (hpos : ∀ i : Fin st.buffer.length, ((st.buffer.get i).index : ℤ) = (i : ℕ))
    (hk : 0 ≤ k) :
    (subscribe st connection_id k).2.1.items =
      (st.buffer.filter (fun m => (m.index : ℤ) > k)).map some ∧
    (st.buffer.filter (fun m => (m.index : ℤ) > k)).Pairwise
      (fun x y => x.index < y.index) := by
  constructor
  · have hfd := filter_index_eq_drop k hk st.buffer 0 (by simpa using hpos)
    have hstart : (max 0 (k + 1)).toNat = (k + 1 - 0).toNat := by
      rw [max_eq_right (by omega : (0 : ℤ) ≤ k + 1)]
      norm_num
    show (if (max 0 (k + 1)).toNat < st.buffer.length
        then st.buffer.drop ((max 0 (k + 1)).toNat) else []).map some = _
    rw [hfd, hstart]
    split
    · rfl
    · next hcon =>
      rw [List.drop_eq_nil_of_le (by omega)]
  · exact (positional_pairwise st.buffer hpos).filter _

/-- C2 (amended) witness: a three-event pre-eviction buffer, `k = 0`. -/
theorem subscribe_replay_exact_pre_eviction_witness :
    (∀ i : Fin c2State.buffer.length,
      ((c2State.buffer.get i).index : ℤ) = (i : ℕ)) ∧
    (subscribe c2State "conn" 0).2.1.items =
      (c2State.buffer.filter (fun m => (m.index : ℤ) > 0)).map some ∧
    (c2State.buffer.filter (fun m => (m.index : ℤ) > 0)).Pairwise
      (fun x y => x.index < y.index) :=
  ⟨by decide, subscribe_replay_exact_pre_eviction c2State "conn" 0 (by decide)
    (by decide)⟩

theorem deliverLoop_fst (m : Option SseMsg) :
    ∀ subs : List (String × Queue),
      (deliverLoop m subs).1 =
        subs.map (fun p => if p.2.ok then (p.1, p.2.push m) else p)
  | [] => rfl
  | (cid, q) :: rest => by
    simp only [deliverLoop, List.map_cons]
    by_cases h : q.ok
    · simp [h, deliverLoop_fst m rest]
    · simp [h, deliverLoop_fst m rest]

theorem deliverLoop_snd (m : Option SseMsg) :
    ∀ subs : List (String × Queue),
      (deliverLoop m subs).2 = (subs.filter (fun p => !p.2.ok)).map Prod.fst
  | [] => rfl
  | (cid, q) :: rest => by
    simp only [deliverLoop, List.filter_cons]
    by_cases h : q.ok
    · simp [h, deliverLoop_snd m rest]
    · simp [h, deliverLoop_snd m rest]

theorem removeDead_map (dead : List String)
    (g : String × Queue → String × Queue) (hg : ∀ p, (g p).1 = p.1) :
    ∀ subs : List (String × Queue),
      (∀ p ∈ subs, p.2.ok = true → p.1 ∉ dead) →
      (∀ p ∈ subs, p.2.ok = false → p.1 ∈ dead) →
      removeDead dead (subs.map (fun p => if p.2.ok then g p else p)) =
        (subs.filter (fun p => p.2.ok)).map g
  | [], _, _ => rfl
  | p :: rest, hok, hfail => by
    have ih := removeDead_map dead g hg rest
      (fun q hq => hok q (List.mem_cons_of_mem p hq))
      (fun q hq => hfail q (List.mem_cons_of_mem p hq))
    by_cases h : p.2.ok
    · have hnot : p.1 ∉ dead := hok p (List.mem_cons_self p rest) h
      have hfst : (g p).1 = p.1 := hg p
      rw [List.map_cons, if_pos h, List.filter_cons, if_pos h, List.map_cons]
      simp only [removeDead]
      rw [hfst, if_neg hnot, ih]
    · have hf : p.2.ok = false := by simpa using h
      have hin : p.1 ∈ dead := hfail p (List.mem_cons_self p rest) hf
      rw [List.map_cons, if_neg h, List.filter_cons, if_neg h]
      simp only [removeDead]
      rw [if_pos hin, ih]

/-- C7: `_broadcast` is total (never raises) and a push failure removes
exactly the failed subscribers and nothing else: the post-broadcast
subscriber map is the ok-subscribers each with the event appended to its
queue, every ok subscriber receives the event, and a failed subscriber's
id no longer appears. -/
theorem broadcast_drops_only_failed_subscribers (st : StreamState)
    (data : Option String)
    (hnodup : (st.subscribers.map Prod.fst).Nodup) :
    (broadcast st data).subscribers =
      (st.subscribers.filter (fun p => p.2.ok)).map
        (fun p => (p.1, p.2.push (data.map (fun d => ⟨st.buffer.length, d⟩)))) ∧
    (∀ p ∈ st.subscribers, p.2.ok = true →
      (p.1, p.2.push (data.map (fun d => ⟨st.buffer.length, d⟩))) ∈
        (broadcast st data).subscribers) ∧
    (∀ p ∈ st.subscribers, p.2.ok = false →
      ∀ q : Queue, (p.1, q) ∉ (broadcast st data).subscribers) := by
  set m : Option SseMsg := data.map (fun d => ⟨st.buffer.length, d⟩) with hm
  have hsubs : (broadcast st data).subscribers =
      removeDead (deliverLoop m st.subscribers).2 (deliverLoop m st.subscribers).1 := by
    simp only [broadcast, hm]
  have hfail2 : ∀ p ∈ st.subscribers, p.2.ok = false →
      p.1 ∈ (deliverLoop m st.subscribers).2 := by
    intro p hp hpf
    rw [deliverLoop_snd]
    exact List.mem_map_of_mem Prod.fst
      (List.mem_filter.mpr ⟨hp, by simp [hpf]⟩)
  have hok2 : ∀ p ∈ st.subscribers, p.2.ok = true →
      p.1 ∉ (deliverLoop m st.subscribers).2 := by
    intro p hp hpo hcon
    rw [deliverLoop_snd] at hcon
    obtain ⟨q, hqmem, hq1⟩ := List.mem_map.mp hcon
    have hqmem' := (List.mem_filter.mp hqmem).1
    have hqf := (List.mem_filter.mp hqmem).2
    have : q = p := List.inj_on_of_nodup_map hnodup hqmem' hp hq1
    subst this
    simp [hpo] at hqf
  have hchar : (broadcast st data).subscribers =
      (st.subscribers.filter (fun p => p.2.ok)).map
        (fun p => (p.1, p.2.push m)) := by
    rw [hsubs, deliverLoop_fst]
    exact removeDead_map (deliverLoop m st.subscribers).2
      (fun p => (p.1, p.2.push m)) (fun p => rfl) st.subscribers hok2 hfail2
  refine ⟨hchar, ?_, ?_⟩
  · intro p hp hpo
    rw [hchar]
    exact List.mem_map_of_mem _ (List.mem_filter.mpr ⟨hp, by simp [hpo]⟩)
  · intro p hp hpf q hcon
    rw [hchar] at hcon
    obtain ⟨r, hrmem, hr1⟩ := List.mem_map.mp hcon
    have hrmem' := (List.mem_filter.mp hrmem).1
    have hro := (List.mem_filter.mp hrmem).2
    have hfst : r.1 = p.1 := by
      have := congrArg Prod.fst hr1
      simpa using this
    have : r = p := List.inj_on_of_nodup_map hnodup hrmem' hp hfst
    subst this
    simp [hpf] at hro

/-- C7 witness: three subscribers, the middle queue broken. -/
theorem broadcast_drops_only_failed_subscribers_witness :
    ((c7State.subscribers.map Prod.fst).Nodup) ∧
    (broadcast c7State (some "x")).subscribers =
      (c7State.subscribers.filter (fun p => p.2.ok)).map
        (fun p => (p.1, p.2.push ((some "x").map
          (fun d => ⟨c7State.buffer.length, d⟩)))) :=
  ⟨by decide,
    (broadcast_drops_only_failed_subscribers c7State (some "x") (by decide)).1⟩

/-- C8 counterexample: a first-ever subscriber (`last_index = -1`) to a
stream with two buffered content chunks receives the accumulated snapshot
*and* the two already-accumulated chunks are also pushed into its queue as
buffered events — the replay is not suppressed for a first connection. -/
theorem subscribe_first_connection_replays_buffer_cex :
    (subscribe c8State "conn" (-1)).2.1.items =
      [some ⟨0, "chunkA"⟩, some ⟨1, "chunkB"⟩] ∧
    (subscribe c8State "conn" (-1)).2.1.items ≠ [] ∧
    (subscribe c8State "conn" (-1)).2.2.1 = "AB" :=
  ⟨rfl, by decide, rfl⟩

/-- C8 (amended): a subscriber with `last_index < 0` receives the full
accumulated snapshot once (as the returned value) and, in addition, its
queue is preloaded with every buffered event from position 0 on. -/
theorem subscribe_negative_index_replays_all (st : StreamState)
    (connection_id : String) (k : ℤ) (hk : k < 0) :
    (subscribe st connection_id k).2.1.items = st.buffer.map some ∧
    (subscribe st connection_id k).2.2.1 = st.full_content := by
  have hmax : max 0 (k + 1) = 0 := max_eq_left (by omega)
  constructor
  · show (if (max 0 (k + 1)).toNat < st.buffer.length
        then st.buffer.drop ((max 0 (k + 1)).toNat) else []).map some = _
    rw [hmax]
    simp only [Int.toNat_zero, List.drop_zero]
    split
    · rfl
    · next hcon =>
      have : st.buffer = [] := by
        have := Nat.eq_zero_of_not_pos hcon
        exact List.length_eq_zero.mp this
      rw [this]
  · rfl

/-- C8 (amended) witness: the two-chunk stream at `last_index = -1`. -/
theorem subscribe_negative_index_replays_all_witness :
    ((-1 : ℤ) < 0) ∧
    (subscribe c8State "conn" (-1)).2.1.items = c8State.buffer.map some ∧
    (subscribe c8State "conn" (-1)).2.2.1 = c8State.full_content :=
  ⟨by decide, subscribe_negative_index_replays_all c8State "conn" (-1) (by decide)⟩

end Csm

/-! ## Theorems: billing (chat_adapter.py / _process_stream) -/

namespace Kie

/-- A stream whose last chunk reports usage `(1, 1)`: tiny but present. -/
def c6Chunks : List Chunk := [⟨some "hello world!", none⟩, ⟨none, some (1, 1)⟩]

theorem string_length_pos (s : String) (h : s ≠ "") : 0 < s.length := by
  cases s with
  | mk data =>
    cases data with
    | nil => exact absurd rfl h
    | cons c cs => simp [String.length]

theorem estimate_cost_one_one_flash :
    (estimate_cost flashConfig 1 1).estimated_credits = 0 := by
  show roundHalfEven (((1 : ℕ) : ℚ) / 1000 * flashConfig.credits_per_1k_input +
    ((1 : ℕ) : ℚ) / 1000 * flashConfig.credits_per_1k_output) = 0
  have harg : ((1 : ℕ) : ℚ) / 1000 * flashConfig.credits_per_1k_input +
      ((1 : ℕ) : ℚ) / 1000 * flashConfig.credits_per_1k_output = 21 / 10000 := by
    norm_num [flashConfig]
  rw [harg]
  have hfloor : ⌊(21 : ℚ) / 10000⌋ = 0 := by norm_num
  simp only [roundHalfEven]
  rw [hfloor]
  rw [if_pos (by norm_num)]

/-- C6 counterexample: the provider did report usage (the final chunk
carries `(1, 1)` tokens), whose credit estimate rounds to `0`; the
completion path then bills by the length heuristic instead (1 credit), so
when usage is reported the billed credits do not always come from that
usage. -/
theorem billing_overrides_reported_usage_cex :
    c6Chunks.any (fun c => c.usage.isSome) = true ∧
    (estimate_cost flashConfig 1 1).estimated_credits = 0 ∧
    streamFold flashConfig c6Chunks = ("hello world!", 0) ∧
    completionBilling flashConfig "hello world!" 0 = some 1 ∧
    ¬ completionBilling flashConfig "hello world!" 0 =
        some (estimate_cost flashConfig 1 1).estimated_credits := by
  have h11 := estimate_cost_one_one_flash
  have hfold : streamFold flashConfig c6Chunks = ("hello world!", 0) := by
    simp only [streamFold, c6Chunks, List.foldl_cons, List.foldl_nil, h11]
    rfl
  have hbill : completionBilling flashConfig "hello world!" 0 = some 1 := by
    unfold completionBilling
    rw [if_pos (by decide : ("hello world!" : String) ≠ "")]
    rw [if_pos (by exact ⟨rfl, by decide⟩)]
    show some (fallbackCredits flashConfig 12) = some 1
    show some (pyIntTrunc (((10 : ℕ) : ℚ) / 1000 *
      flashConfig.credits_per_1k_output) + 1) = some 1
    have harg : ((10 : ℕ) : ℚ) / 1000 * flashConfig.credits_per_1k_output =
        9 / 500 := by
      norm_num [flashConfig]
    rw [harg]
    simp only [pyIntTrunc]
    rw [if_pos (by norm_num)]
    norm_num
  refine ⟨by decide, h11, hfold, hbill, ?_⟩
  rw [hbill, h11]
  decide

/-- C6 (amended): whenever the stream completes with non-empty output the
credit deduction is invoked with an amount of at least 1: if the
usage-derived credits are non-zero they are billed as-is; if usage was
absent or its estimate rounded to zero credits, the deterministic
`max(len // 3, 10)`-token heuristic is billed instead. -/
theorem completion_billing_spec (cfg : ModelConfig)
    (hcfg : 0 ≤ cfg.credits_per_1k_output) (full : String) (hf : full ≠ "")
    (c0 : ℤ) (hc : 0 ≤ c0) :
    ∃ b, completionBilling cfg full c0 = some b ∧ 1 ≤ b ∧
      (c0 ≠ 0 → b = c0) ∧
      (c0 = 0 → b = fallbackCredits cfg full.length) := by
  have hlen : 0 < full.length := string_length_pos full hf
  by_cases h0 : c0 = 0
  · refine ⟨fallbackCredits cfg full.length, ?_, ?_, fun hne => absurd h0 hne,
      fun _ => rfl⟩
    · unfold completionBilling
      rw [if_pos hf, if_pos ⟨h0, hlen⟩]
    · simp only [fallbackCredits, pyIntTrunc]
      have hq : (0 : ℚ) ≤ ((max (full.length / 3) 10 : ℕ) : ℚ) / 1000 *
          cfg.credits_per_1k_output := by
        apply mul_nonneg _ hcfg
        positivity
      rw [if_pos hq]
      have := Int.floor_nonneg.mpr hq
      omega
  · refine ⟨c0, ?_, by omega, fun _ => rfl, fun he => absurd he h0⟩
    unfold completionBilling
    rw [if_pos hf, if_neg (by simp [h0])]

/-- C6 (amended) witness: flash pricing, non-empty output, usage credits 5. -/
theorem completion_billing_spec_witness :
    (0 : ℚ) ≤ flashConfig.credits_per_1k_output ∧ ("hi" : String) ≠ "" ∧
    (0 : ℤ) ≤ 5 ∧
    ∃ b, completionBilling flashConfig "hi" 5 = some b ∧ 1 ≤ b ∧
      ((5 : ℤ) ≠ 0 → b = 5) ∧
      ((5 : ℤ) = 0 → b = fallbackCredits flashConfig ("hi" : String).length) :=
  ⟨by norm_num [flashConfig], by decide, by decide,
    completion_billing_spec flashConfig (by norm_num [flashConfig]) "hi"
      (by decide) 5 (by decide)⟩

end Kie

/-! ## Theorems: background_task_worker.py -/

namespace Btw

/-- A task row the in-process producer already completed. -/
def c1Row : TaskRow :=
  ⟨"t1", "e1", "image", .completed, 0, some 1, none, "done", none, none, none, 0⟩

/-- A running task row. -/
def c1RowRunning : TaskRow :=
  ⟨"t2", "e2", "image", .running, 0, none, none, "", none, none, none, 0⟩

/-- A pending chat task that started at time 0. -/
def c3Row : TaskRow :=
  ⟨"t3", "e3", "chat", .pending, 0, none, none, "", none, none, none, 0⟩

/-- C1 counterexample: the poller's status write carries no status guard
(it matches the row by `external_task_id` alone), so it is not a no-op on
a terminal task: a task completed by the producer is written back to
`running` when the provider still reports `processing`, and a `running`
task regresses to `pending` when the provider reports `pending`. -/
theorem poller_update_overwrites_terminal_cex :
    c1Row.status = .completed ∧
    (query_kie_and_update c1Row ⟨some "processing", none, none, none⟩ 2).status =
      .running ∧
    c1RowRunning.status = .running ∧
    (query_kie_and_update c1RowRunning ⟨some "pending", none, none, none⟩ 2).status =
      .pending :=
  ⟨rfl, rfl, rfl, rfl⟩

/-- C1 (amended): the status-guarded no-op on terminal tasks holds for the
producer's guaranteed cleanup step (it re-checks the status and touches
only pending/running rows) and for the timeout sweep (it only rewrites
rows selected as pending/running); the poller's provider-driven update,
by contrast, writes unconditionally (see the counterexample). -/
theorem guarded_paths_noop_on_terminal :
    (∀ (row : TaskRow) (fc : String) (cn : Bool) (now : ℚ),
      row.status = .completed ∨ row.status = .failed →
      final_cleanup_sync row fc cn now = row) ∧
    (∀ (it vt : ℕ) (now : ℚ) (task : TaskRow),
      task.status = .completed ∨ task.status = .failed →
      sweep_row it vt now task = task) := by
  constructor
  · intro row fc cn now h
    have hns : ¬ (row.status = .pending ∨ row.status = .running) := by
      rcases h with h | h <;> simp [h]
    unfold final_cleanup_sync
    by_cases hcn : cn = false ∧ fc ≠ ""
    · rw [if_pos hcn, if_neg hns]
    · rw [if_neg hcn]
  · intro it vt now task h
    have hns : ¬ (task.status = .pending ∨ task.status = .running) := by
      rcases h with h | h <;> simp [h]
    unfold sweep_row
    rw [if_neg hns]

/-- C1 (amended) witness: both guarded paths at a completed row. -/
theorem guarded_paths_noop_on_terminal_witness :
    (c1Row.status = .completed ∨ c1Row.status = .failed) ∧
    final_cleanup_sync c1Row "partial" false 3 = c1Row ∧
    sweep_row 30 60 100000 c1Row = c1Row :=
  ⟨Or.inl rfl,
    guarded_paths_noop_on_terminal.1 c1Row "partial" false 3 (Or.inl rfl),
    guarded_paths_noop_on_terminal.2 30 60 100000 c1Row (Or.inl rfl)⟩

/-- C3: on a sweep pass, every selected task still pending or running whose
age `now - started_at` strictly exceeds its kind's timeout (10 minutes for
chat, the configured image/video timeouts otherwise) is marked failed with
the timeout error message and `completed_at = now`, with no provider
involvement. -/
theorem sweep_marks_timed_out_tasks (it vt : ℕ) (now : ℚ)
    (tasks : List TaskRow) (i : ℕ) (task : TaskRow)
    (hi : tasks.get? i = some task)
    (hnt : task.status = .pending ∨ task.status = .running)
    (hto : now - task.started_at >
      ((timeout_minutes it vt task.type' : ℕ) : ℚ) * 60) :
    (cleanup_stale_tasks it vt now tasks).get? i =
      some { task with
        status := .failed,
        error_message :=
          some (timeout_error_message (timeout_minutes it vt task.type')),
        completed_at := some now } ∧
    timeout_minutes it vt "chat" = 10 := by
  constructor
  · unfold cleanup_stale_tasks
    rw [List.get?_map, hi]
    simp only [Option.map_some']
    congr 1
    unfold sweep_row
    rw [if_pos hnt, if_pos hto]
  · rfl

/-- C3 witness: a pending chat task, 700 seconds old, times out at a tick. -/
theorem sweep_marks_timed_out_tasks_witness :
    [c3Row].get? 0 = some c3Row ∧
    (c3Row.status = .pending ∨ c3Row.status = .running) ∧
    (700 : ℚ) - c3Row.started_at >
      ((timeout_minutes 30 60 c3Row.type' : ℕ) : ℚ) * 60 ∧
    (cleanup_stale_tasks 30 60 700 [c3Row]).get? 0 =
      some { c3Row with
        status := .failed,
        error_message :=
          some (timeout_error_message (timeout_minutes 30 60 c3Row.type')),
        completed_at := some 700 } ∧
    timeout_minutes 30 60 "chat" = 10 :=
  ⟨rfl, Or.inl rfl, by norm_num [timeout_minutes, c3Row],
    (sweep_marks_timed_out_tasks 30 60 700 [c3Row] 0 c3Row rfl (Or.inl rfl)
      (by norm_num [timeout_minutes, c3Row])).1,
    (sweep_marks_timed_out_tasks 30 60 700 [c3Row] 0 c3Row rfl (Or.inl rfl)
      (by norm_num [timeout_minutes, c3Row])).2⟩

end Btw

end EverydayAI
